import Mathlib

/-!
Verification of the `site_calc_investment` client against its design
specification.  The Python source is shallowly embedded: pure numeric
code (`analysis/financial.py`, `analysis/comparison.py`) becomes Lean
functions over `ℚ`, pydantic model construction becomes `Except`-valued
smart constructors, and the HTTP client's retry loop and polling loop
(`api/client.py`) become functions over explicit event traces.
-/

set_option autoImplicit false

namespace SiteCalc

/-! ## Financial analysis engine (`analysis/financial.py`) -/

/-- Convergence tolerance of the IRR Newton iteration (`tolerance = 1e-6`). -/
def tol : ℚ := 1 / 1000000

/-- `calculate_npv` (financial.py lines 6-34): starts from
`initial_investment` and, for `t, cash_flow in enumerate(cash_flows, start=1)`,
adds `cash_flow / (1 + discount_rate) ** t`. -/
def calculate_npv (cash_flows : List ℚ) (discount_rate : ℚ) (initial_investment : ℚ) : ℚ :=
  cash_flows.enum.foldl
    (fun npv p => npv + p.2 / (1 + discount_rate) ^ (p.1 + 1)) initial_investment

/-- The inner `for t, cash_flow in enumerate(cash_flows)` pass of
`_irr_newton_raphson` (financial.py lines 84-88): accumulates the pair
`(npv, npv_derivative)` at `rate`, where the derivative term is only
subtracted for `t > 0`. -/
def irrScan (cash_flows : List ℚ) (rate : ℚ) : ℚ × ℚ :=
  cash_flows.enum.foldl
    (fun acc p =>
      (acc.1 + p.2 / (1 + rate) ^ p.1,
       if 0 < p.1 then acc.2 - (p.1 : ℚ) * p.2 / (1 + rate) ^ (p.1 + 1) else acc.2))
    (0, 0)

/-- The Newton-Raphson update `rate - npv / npv_derivative`
(financial.py line 98). -/
def newtonUpdate (cash_flows : List ℚ) (rate : ℚ) : ℚ :=
  rate - (irrScan cash_flows rate).1 / (irrScan cash_flows rate).2

/-- The `for _ in range(max_iterations)` loop of `_irr_newton_raphson`
(financial.py lines 79-104), with the remaining iteration count as fuel:
return `rate` when `abs npv < tolerance`; return `none` when the derivative
magnitude falls below the tolerance, when the updated rate satisfies
`rate < -0.99 or rate > 10`, or when the fuel runs out. -/
def irrLoop (cash_flows : List ℚ) : ℚ → Nat → Option ℚ
  | _, 0 => none
  | rate, n + 1 =>
    let s := irrScan cash_flows rate
    if |s.1| < tol then some rate
    else if |s.2| < tol then none
    else
      let rate2 := rate - s.1 / s.2
      if rate2 < -(99 / 100 : ℚ) ∨ 10 < rate2 then none
      else irrLoop cash_flows rate2 n

/-- `calculate_irr` (financial.py lines 37-62): `none` for fewer than two
cash flows, otherwise `_irr_newton_raphson` with `max_iterations = 100`. -/
def calculate_irr (cash_flows : List ℚ) (initial_guess : ℚ) : Option ℚ :=
  if cash_flows.length < 2 then none
  else irrLoop cash_flows initial_guess 100

/-- The `for year, cash_flow in enumerate(cash_flows)` loop of
`calculate_payback_period` (financial.py lines 129-145): running
`cumulative` sum; on the first year with `cumulative >= 0` return `0.0`
for year 0 and otherwise `(year - 1) + (-prev_cumulative / cash_flow)`. -/
def paybackLoop : List ℚ → ℚ → Nat → Option ℚ
  | [], _, _ => none
  | cash_flow :: rest, cumulative, year =>
    let c := cumulative + cash_flow
    if 0 ≤ c then
      if year = 0 then some 0
      else some ((year : ℚ) - 1 + -(c - cash_flow) / cash_flow)
    else paybackLoop rest c (year + 1)

/-- `calculate_payback_period` (financial.py lines 107-147): `none` for
fewer than two cash flows, otherwise the loop above from a zero
cumulative sum. -/
def calculate_payback_period (cash_flows : List ℚ) : Option ℚ :=
  if cash_flows.length < 2 then none
  else paybackLoop cash_flows 0 0

/-- `aggregate_annual` (financial.py lines 150-202): validates that the
hourly series (and the price series, when given) has exactly
`8760 * years` entries, then sums each `[year*8760, (year+1)*8760)` slice,
as value-price products when prices are supplied. -/
def aggregate_annual (hourly_values : List ℚ) (prices : Option (List ℚ)) (years : Nat) :
    Except String (List ℚ) :=
  let hours_per_year := 8760
  let expected_length := hours_per_year * years
  if hourly_values.length ≠ expected_length then
    Except.error "Expected hourly values count to match years"
  else
    match prices with
    | some ps =>
      if ps.length ≠ expected_length then
        Except.error "Prices length does not match hourly_values length"
      else
        Except.ok ((List.range years).map fun year =>
          ((((hourly_values.drop (year * hours_per_year)).take hours_per_year).zip
            ((ps.drop (year * hours_per_year)).take hours_per_year)).map
              fun p => p.1 * p.2).sum)
    | none =>
      Except.ok ((List.range years).map fun year =>
        ((hourly_values.drop (year * hours_per_year)).take hours_per_year).sum)

/-! ## List summation helpers -/

/-- Folding `acc + g index value` over an enumerated list is the explicit
indexed sum. -/
theorem foldl_enumFrom_add (g : Nat → ℚ → ℚ) :
    ∀ (l : List ℚ) (k : Nat) (a : ℚ),
      (List.enumFrom k l).foldl (fun acc p => acc + g p.1 p.2) a
        = a + ∑ i ∈ Finset.range l.length, g (k + i) (l.getD i 0)
  | [], k, a => by simp
  | x :: xs, k, a => by
    rw [List.enumFrom_cons, List.foldl_cons, foldl_enumFrom_add g xs (k + 1) (a + g k x),
      List.length_cons, Finset.sum_range_succ']
    simp only [List.getD_cons_succ, List.getD_cons_zero]
    have h : ∀ i : Nat, k + 1 + i = k + (i + 1) := by omega
    rw [Finset.sum_congr rfl fun i _ => by rw [h i]]
    simp only [Nat.add_zero]
    rw [add_assoc, add_comm (g k x)]

/-- Pair version of `foldl_enumFrom_add`, matching the accumulator shape of
`irrScan`. -/
theorem foldl_enumFrom_pair (f g : Nat → ℚ → ℚ) :
    ∀ (l : List ℚ) (k : Nat) (a b : ℚ),
      (List.enumFrom k l).foldl
          (fun (acc : ℚ × ℚ) p => (acc.1 + f p.1 p.2, acc.2 + g p.1 p.2)) (a, b)
        = (a + ∑ i ∈ Finset.range l.length, f (k + i) (l.getD i 0),
           b + ∑ i ∈ Finset.range l.length, g (k + i) (l.getD i 0))
  | [], k, a, b => by simp
  | x :: xs, k, a, b => by
    simp only [List.enumFrom_cons, List.foldl_cons]
    rw [foldl_enumFrom_pair f g xs (k + 1) (a + f k x) (b + g k x),
      List.length_cons, Finset.sum_range_succ', Finset.sum_range_succ']
    simp only [List.getD_cons_succ, List.getD_cons_zero]
    have h : ∀ i : Nat, k + 1 + i = k + (i + 1) := by omega
    rw [Finset.sum_congr rfl fun i _ => by rw [h i],
      Finset.sum_congr rfl fun i _ => show g (k + 1 + i) (xs.getD i 0) = _ by rw [h i]]
    simp only [Prod.mk.injEq, Nat.add_zero]
    exact ⟨by rw [add_assoc, add_comm (f k x)], by rw [add_assoc, add_comm (g k x)]⟩

/-- The sum of `l.take n` as an indexed sum (out-of-range positions
contribute the default `0`). -/
theorem sum_take_eq : ∀ (l : List ℚ) (n : Nat),
    (l.take n).sum = ∑ i ∈ Finset.range n, l.getD i 0
  | _, 0 => by simp
  | [], n + 1 => by simp
  | x :: xs, n + 1 => by
    rw [List.take_succ_cons, List.sum_cons, sum_take_eq xs n, Finset.sum_range_succ']
    simp only [List.getD_cons_succ, List.getD_cons_zero]
    ring

/-- `getD` through `drop` shifts the index. -/
theorem getD_drop_eq (l : List ℚ) (s i : Nat) : (l.drop s).getD i 0 = l.getD (s + i) 0 := by
  rw [List.getD_eq_getElem?_getD, List.getD_eq_getElem?_getD, List.getElem?_drop]

/-- `getD` through `take` at an in-range index. -/
theorem getD_take_eq (l : List ℚ) {n i : Nat} (h : i < n) :
    (l.take n).getD i 0 = l.getD i 0 := by
  rw [List.getD_eq_getElem?_getD, List.getD_eq_getElem?_getD, List.getElem?_take, if_pos h]

/-- The summed products of a zipped pair of lists as an indexed sum. -/
theorem zip_mul_sum : ∀ (a b : List ℚ),
    ((a.zip b).map fun p => p.1 * p.2).sum
      = ∑ i ∈ Finset.range (min a.length b.length), a.getD i 0 * b.getD i 0
  | [], b => by simp
  | x :: xs, [] => by simp
  | x :: xs, y :: ys => by
    rw [List.zip_cons_cons, List.map_cons, List.sum_cons, zip_mul_sum xs ys]
    rw [List.length_cons, List.length_cons, Nat.succ_min_succ, Finset.sum_range_succ']
    simp only [List.getD_cons_succ, List.getD_cons_zero]
    ring

/-- `∑ i < l.length, l.getD i 0` is just `l.sum`. -/
theorem sum_getD_length (l : List ℚ) : ∑ i ∈ Finset.range l.length, l.getD i 0 = l.sum := by
  rw [← sum_take_eq, List.take_length]

/-! ## C4: `calculate_npv` equals the explicit discounted sum -/

/-- The claim's NPV formula `c + Σ_{t=1..T} cf[t] / (1+rate)^t`, written with
positions `i = t - 1` ranging over the list. -/
def npvSpec (cash_flows : List ℚ) (rate : ℚ) (initial_investment : ℚ) : ℚ :=
  initial_investment +
    ∑ i ∈ Finset.range cash_flows.length, cash_flows.getD i 0 / (1 + rate) ^ (i + 1)

/-- C4: for every cash-flow list, rate and initial investment,
`calculate_npv` equals the spec formula `c + Σ_{t=1..T} cf[t]/(1+rate)^t`;
in particular at rate 0 it is `c` plus the plain sum of the cash flows. -/
theorem npv_eq_spec :
    (∀ (cash_flows : List ℚ) (rate c : ℚ),
        calculate_npv cash_flows rate c = npvSpec cash_flows rate c) ∧
    (∀ (cash_flows : List ℚ) (c : ℚ), calculate_npv cash_flows 0 c = c + cash_flows.sum) := by
  have key : ∀ (cash_flows : List ℚ) (rate c : ℚ),
      calculate_npv cash_flows rate c = npvSpec cash_flows rate c := by
    intro cfs r c
    unfold calculate_npv npvSpec
    rw [show cfs.enum = List.enumFrom 0 cfs from rfl,
      foldl_enumFrom_add (fun t cf => cf / (1 + r) ^ (t + 1)) cfs 0 c]
    exact congrArg (c + ·) (Finset.sum_congr rfl fun i _ => by rw [Nat.zero_add])
  refine ⟨key, fun cfs c => ?_⟩
  rw [key cfs 0 c, npvSpec, ← sum_getD_length cfs]
  exact congrArg (c + ·) (Finset.sum_congr rfl fun i _ => by norm_num)

/-! ## C3: `calculate_irr` / `_irr_newton_raphson` -/

/-- The NPV polynomial rooted by the IRR iteration:
`Σ_{t=0..T} cf[t] / (1+rate)^t` (`cf[0]` is the initial investment). -/
def npvFrom0 (cash_flows : List ℚ) (rate : ℚ) : ℚ :=
  ∑ t ∈ Finset.range cash_flows.length, cash_flows.getD t 0 / (1 + rate) ^ t

/-- The spec's derivative formula `NPV'(rate) = Σ_{t=1..T} −t·cf[t]/(1+rate)^(t+1)`
(the `t = 0` summand vanishes, so the sum may start at 0). -/
def npvDerivSpec (cash_flows : List ℚ) (rate : ℚ) : ℚ :=
  ∑ t ∈ Finset.range cash_flows.length, -((t : ℚ) * cash_flows.getD t 0 / (1 + rate) ^ (t + 1))

/-- The Newton–Raphson update expressed through the spec formulas. -/
def newtonSpec (cash_flows : List ℚ) (rate : ℚ) : ℚ :=
  rate - npvFrom0 cash_flows rate / npvDerivSpec cash_flows rate

/-- The accumulation pass of `_irr_newton_raphson` computes exactly the pair
(NPV, spec derivative). -/
theorem irrScan_eq (cash_flows : List ℚ) (rate : ℚ) :
    irrScan cash_flows rate = (npvFrom0 cash_flows rate, npvDerivSpec cash_flows rate) := by
  unfold irrScan npvFrom0 npvDerivSpec
  have hstep : (fun (acc : ℚ × ℚ) (p : Nat × ℚ) =>
      (acc.1 + p.2 / (1 + rate) ^ p.1,
       if 0 < p.1 then acc.2 - (p.1 : ℚ) * p.2 / (1 + rate) ^ (p.1 + 1) else acc.2))
      = (fun (acc : ℚ × ℚ) (p : Nat × ℚ) =>
      (acc.1 + (fun (t : Nat) (cf : ℚ) => cf / (1 + rate) ^ t) p.1 p.2,
       acc.2 + (fun (t : Nat) (cf : ℚ) =>
         if 0 < t then -((t : ℚ) * cf / (1 + rate) ^ (t + 1)) else 0) p.1 p.2)) := by
    funext acc p
    by_cases h : 0 < p.1
    · simp [h, sub_eq_add_neg]
    · simp [h]
  rw [show cash_flows.enum = List.enumFrom 0 cash_flows from rfl, hstep,
    foldl_enumFrom_pair (fun (t : Nat) (cf : ℚ) => cf / (1 + rate) ^ t)
      (fun (t : Nat) (cf : ℚ) => if 0 < t then -((t : ℚ) * cf / (1 + rate) ^ (t + 1)) else 0)
      cash_flows 0 0 0]
  simp only [Nat.zero_add, zero_add, Prod.mk.injEq]
  refine ⟨by trivial, Finset.sum_congr rfl fun i _ => ?_⟩
  match i with
  | 0 => simp
  | i + 1 => simp

/-- C3's enumeration of the ways `_irr_newton_raphson` reports "no solution"
from a given rate with a given number of remaining iterations: the iteration
cap is reached, the derivative magnitude falls below the tolerance, the
updated candidate rate satisfies `rate < -0.99` or `rate > 10`, or the same
happens later in the run. -/
inductive IrrFails (cash_flows : List ℚ) : ℚ → Nat → Prop
  | cap (rate : ℚ) : IrrFails cash_flows rate 0
  | derivSmall (rate : ℚ) (n : Nat) :
      ¬ |npvFrom0 cash_flows rate| < tol →
      |npvDerivSpec cash_flows rate| < tol →
      IrrFails cash_flows rate (n + 1)
  | outOfRange (rate : ℚ) (n : Nat) :
      ¬ |npvFrom0 cash_flows rate| < tol →
      ¬ |npvDerivSpec cash_flows rate| < tol →
      (newtonSpec cash_flows rate < -(99 / 100) ∨ 10 < newtonSpec cash_flows rate) →
      IrrFails cash_flows rate (n + 1)
  | next (rate : ℚ) (n : Nat) :
      ¬ |npvFrom0 cash_flows rate| < tol →
      ¬ |npvDerivSpec cash_flows rate| < tol →
      ¬ (newtonSpec cash_flows rate < -(99 / 100) ∨ 10 < newtonSpec cash_flows rate) →
      IrrFails cash_flows (newtonSpec cash_flows rate) n →
      IrrFails cash_flows rate (n + 1)

/-- A returned rate has NPV within the convergence tolerance. -/
theorem irrLoop_sound (cash_flows : List ℚ) :
    ∀ (n : Nat) (g r : ℚ), irrLoop cash_flows g n = some r →
      |npvFrom0 cash_flows r| < tol := by
  intro n
  induction n with
  | zero => intro g r h; exact absurd h (by simp [irrLoop])
  | succ n ih =>
    intro g r h
    rw [irrLoop, irrScan_eq] at h
    simp only at h
    rw [show g - npvFrom0 cash_flows g / npvDerivSpec cash_flows g
        = newtonSpec cash_flows g from rfl] at h
    by_cases h1 : |npvFrom0 cash_flows g| < tol
    · rw [if_pos h1] at h
      cases h
      exact h1
    · rw [if_neg h1] at h
      by_cases h2 : |npvDerivSpec cash_flows g| < tol
      · rw [if_pos h2] at h; cases h
      · rw [if_neg h2] at h
        by_cases h3 : newtonSpec cash_flows g < -(99 / 100) ∨ 10 < newtonSpec cash_flows g
        · rw [if_pos h3] at h; cases h
        · rw [if_neg h3] at h
          exact ih (newtonSpec cash_flows g) r h

/-- The loop returns `none` exactly when one of the claimed failure reasons
occurs along the run. -/
theorem irrLoop_none_iff (cash_flows : List ℚ) :
    ∀ (n : Nat) (g : ℚ), irrLoop cash_flows g n = none ↔ IrrFails cash_flows g n := by
  intro n
  induction n with
  | zero => exact fun g => ⟨fun _ => IrrFails.cap g, fun _ => rfl⟩
  | succ n ih =>
    intro g
    rw [irrLoop, irrScan_eq]
    simp only
    rw [show g - npvFrom0 cash_flows g / npvDerivSpec cash_flows g
        = newtonSpec cash_flows g from rfl]
    by_cases h1 : |npvFrom0 cash_flows g| < tol
    · rw [if_pos h1]
      constructor
      · intro h; cases h
      · intro hf
        cases hf with
        | derivSmall _ _ h _ => exact absurd h1 h
        | outOfRange _ _ h _ _ => exact absurd h1 h
        | next _ _ h _ _ _ => exact absurd h1 h
    · rw [if_neg h1]
      by_cases h2 : |npvDerivSpec cash_flows g| < tol
      · rw [if_pos h2]
        exact ⟨fun _ => IrrFails.derivSmall g n h1 h2, fun _ => rfl⟩
      · rw [if_neg h2]
        by_cases h3 : newtonSpec cash_flows g < -(99 / 100) ∨ 10 < newtonSpec cash_flows g
        · rw [if_pos h3]
          exact ⟨fun _ => IrrFails.outOfRange g n h1 h2 h3, fun _ => rfl⟩
        · rw [if_neg h3]
          constructor
          · intro h
            exact IrrFails.next g n h1 h2 h3 ((ih (newtonSpec cash_flows g)).mp h)
          · intro hf
            cases hf with
            | derivSmall _ _ _ h => exact absurd h h2
            | outOfRange _ _ _ _ h => exact absurd h h3
            | next _ _ _ _ _ h => exact (ih (newtonSpec cash_flows g)).mpr h

/-- C3 (amended): `calculate_irr` returns a rate only when `|NPV(rate)| < 1e-6`;
the accumulated derivative is exactly the spec formula
`Σ_{t=1..T} −t·cf[t]/(1+rate)^(t+1)`; and (for at least two cash flows) it
returns `none` exactly when the derivative magnitude falls below `1e-6`, the
updated candidate rate satisfies `rate < -0.99` or `rate > 10`, or the cap of
100 iterations is reached. -/
theorem irr_newton_spec :
    (∀ (cash_flows : List ℚ) (g r : ℚ),
        calculate_irr cash_flows g = some r → |npvFrom0 cash_flows r| < tol) ∧
    (∀ (cash_flows : List ℚ) (r : ℚ),
        (irrScan cash_flows r).2 = npvDerivSpec cash_flows r) ∧
    (∀ (cash_flows : List ℚ) (g : ℚ), 2 ≤ cash_flows.length →
        (calculate_irr cash_flows g = none ↔ IrrFails cash_flows g 100)) := by
  refine ⟨fun cfs g r h => ?_, fun cfs r => by rw [irrScan_eq], fun cfs g hlen => ?_⟩
  · rw [calculate_irr] at h
    by_cases hl : cfs.length < 2
    · rw [if_pos hl] at h; cases h
    · rw [if_neg hl] at h
      exact irrLoop_sound cfs 100 g r h
  · rw [calculate_irr, if_neg (by omega)]
    exact irrLoop_none_iff cfs 100 g

/-- Scan evaluation at guess 0 on `[2, -23, 11]`: NPV −10, derivative 1. -/
theorem irrScan_boundary_first : irrScan [2, -23, 11] 0 = (-10, 1) := by
  norm_num [irrScan, List.enum, List.enumFrom]

/-- Scan evaluation at rate 10 on `[2, -23, 11]`: the NPV is exactly 0. -/
theorem irrScan_boundary_second : irrScan [2, -23, 11] 10 = (0, 21 / 121) := by
  norm_num [irrScan, List.enum, List.enumFrom]

/-- Scan evaluation at rate 0.1 on `[-100, 110]`: the NPV is exactly 0. -/
theorem irrScan_closed_form : irrScan [-100, 110] (1 / 10) = (0, -1000 / 11) := by
  norm_num [irrScan, List.enum, List.enumFrom]

/-- The first iteration from guess 0 on `[2, -23, 11]` updates the rate to
exactly 10, which the range check `rate < -0.99 or rate > 10` admits. -/
theorem irrLoop_boundary_step (n : Nat) :
    irrLoop [2, -23, 11] 0 (n + 1) = irrLoop [2, -23, 11] 10 n := by
  rw [irrLoop, irrScan_boundary_first]
  norm_num [tol]

/-- The next iteration converges at rate 10. -/
theorem irrLoop_boundary_conv (n : Nat) : irrLoop [2, -23, 11] 10 (n + 1) = some 10 := by
  rw [irrLoop, irrScan_boundary_second]
  norm_num [tol]

/-- `calculate_irr [2, -23, 11] 0` returns the boundary rate 10. -/
theorem calculate_irr_boundary : calculate_irr [2, -23, 11] 0 = some 10 := by
  rw [calculate_irr, if_neg (by decide), show (100 : Nat) = 98 + 1 + 1 from rfl,
    irrLoop_boundary_step, irrLoop_boundary_conv]

/-- `IRR([-100, 110], 0.1)` converges immediately to exactly 0.1. -/
theorem calculate_irr_closed_form : calculate_irr [-100, 110] (1 / 10) = some (1 / 10) := by
  rw [calculate_irr, if_neg (by decide), show (100 : Nat) = 99 + 1 from rfl,
    irrLoop, irrScan_closed_form]
  norm_num [tol]

/-- Witness for `irr_newton_spec` at concrete inputs: `IRR([-100, 110], 0.1)`
returns `0.1`, whose NPV is within tolerance. -/
theorem irr_newton_spec_witness :
    |npvFrom0 [-100, 110] (1 / 10)| < tol ∧
    (calculate_irr [-100, 110] (1 / 10) = none ↔ IrrFails [-100, 110] (1 / 10) 100) :=
  ⟨irr_newton_spec.1 [-100, 110] (1 / 10) (1 / 10) calculate_irr_closed_form,
   irr_newton_spec.2.2 [-100, 110] (1 / 10) (by decide)⟩

/-- Counterexample to C3 as stated: from guess 0 on `[2, -23, 11]` the Newton
update is not blocked by the convergence or derivative checks and lands on
the candidate rate 10, which is outside the open interval (−0.99, 10); the
claim then requires "no solution", but the code keeps iterating and returns
`some 10` on the next pass. -/
theorem irr_open_interval_cex :
    ¬ |(irrScan [2, -23, 11] 0).1| < tol ∧
    ¬ |(irrScan [2, -23, 11] 0).2| < tol ∧
    newtonUpdate [2, -23, 11] 0 = 10 ∧
    calculate_irr [2, -23, 11] 0 = some 10 := by
  refine ⟨?_, ?_, ?_, calculate_irr_boundary⟩
  · rw [irrScan_boundary_first]; norm_num [tol]
  · rw [irrScan_boundary_first]; norm_num [tol]
  · rw [newtonUpdate, irrScan_boundary_first]; norm_num

/-! ## C5: `calculate_payback_period` -/

/-- The running cumulative sum after processing year `k` (year 0 being the
initial investment). -/
def cumulativeSum (cash_flows : List ℚ) (k : Nat) : ℚ :=
  (cash_flows.take (k + 1)).sum

/-- The payback loop returns `none` exactly when the running cumulative sum
stays negative throughout. -/
theorem paybackLoop_none_iff : ∀ (l : List ℚ) (acc : ℚ) (year : Nat),
    paybackLoop l acc year = none ↔ ∀ k < l.length, acc + (l.take (k + 1)).sum < 0
  | [], acc, year => by simp [paybackLoop]
  | cf :: rest, acc, year => by
    rw [paybackLoop]
    by_cases hc : 0 ≤ acc + cf
    · rw [if_pos hc]
      constructor
      · intro h
        split at h <;> cases h
      · intro h
        have h0 := h 0 (by simp)
        simp only [List.take_succ_cons, List.take_zero, List.sum_cons, List.sum_nil,
          add_zero] at h0
        exact absurd hc (not_le.mpr h0)
    · rw [if_neg hc]
      rw [paybackLoop_none_iff rest (acc + cf) (year + 1)]
      constructor
      · intro h k hk
        match k with
        | 0 =>
          simpa using not_le.mp hc
        | k + 1 =>
          have := h k (by simpa using hk)
          simpa [add_assoc] using this
      · intro h k hk
        have := h (k + 1) (by simpa using hk)
        simpa [add_assoc] using this

/-- The payback loop at the first crossing year: result `0` when the very
first cash flow already makes the sum non-negative, otherwise
`(year - 1) + (-previousCumulative / cashFlowThatYear)`. -/
theorem paybackLoop_crossing : ∀ (l : List ℚ) (acc : ℚ) (year k : Nat),
    k < l.length → 0 ≤ acc + (l.take (k + 1)).sum →
    (∀ j < k, acc + (l.take (j + 1)).sum < 0) →
    paybackLoop l acc year =
      if year + k = 0 then some 0
      else some (((year : ℚ) + k) - 1 + -(acc + (l.take k).sum) / l.getD k 0)
  | [], acc, year, k => by intro hk; exact absurd hk (by simp)
  | cf :: rest, acc, year, 0 => by
    intro hk hge hlt
    rw [paybackLoop]
    simp only [List.take_succ_cons, List.take_zero, List.sum_cons, List.sum_nil,
      add_zero] at hge
    rw [if_pos hge]
    simp only [Nat.add_zero, List.take_zero, List.sum_nil, add_zero, List.getD_cons_zero,
      Nat.cast_zero]
    by_cases hy : year = 0
    · subst hy
      simp
    · rw [if_neg hy, if_neg hy]
      congr 1
      have hcf : acc + cf - cf = acc := by ring
      rw [hcf]
  | cf :: rest, acc, year, k + 1 => by
    intro hk hge hlt
    rw [paybackLoop]
    have h0 : acc + cf < 0 := by
      have := hlt 0 (by omega)
      simpa using this
    rw [if_neg (not_le.mpr h0)]
    rw [paybackLoop_crossing rest (acc + cf) (year + 1) k
      (by simpa using hk)
      (by simpa [add_assoc] using hge)
      (fun j hj => by
        have := hlt (j + 1) (by omega)
        simpa [add_assoc] using this)]
    rw [if_neg (show ¬(year + 1 + k = 0) by omega),
      if_neg (show ¬(year + (k + 1) = 0) by omega)]
    simp only [List.take_succ_cons, List.sum_cons, List.getD_cons_succ]
    congr 1
    push_cast
    ring

/-- C5: for a cash-flow list whose element 0 is the (negative) initial
investment, `calculate_payback_period` returns the never sentinel exactly
when the cumulative sum never becomes non-negative; at the first crossing
year `k` it returns `(k − 1) + (−previousCumulative / cashFlowThatYear)`;
and the two spec examples evaluate as stated. -/
theorem payback_period_spec :
    (∀ (c0 : ℚ) (rest : List ℚ), c0 < 0 →
        (calculate_payback_period (c0 :: rest) = none ↔
          ∀ k < (c0 :: rest).length, cumulativeSum (c0 :: rest) k < 0)) ∧
    (∀ (c0 : ℚ) (rest : List ℚ) (k : Nat), c0 < 0 →
        k < (c0 :: rest).length →
        0 ≤ cumulativeSum (c0 :: rest) k →
        (∀ j < k, cumulativeSum (c0 :: rest) j < 0) →
        calculate_payback_period (c0 :: rest) =
          some ((k : ℚ) - 1 + -(((c0 :: rest).take k).sum) / (c0 :: rest).getD k 0)) ∧
    calculate_payback_period [-1000, 300, 300, 300, 300] = some (10 / 3) ∧
    calculate_payback_period [-1000, 100, 100, 100] = none := by
  have hnone : ∀ (c0 : ℚ) (rest : List ℚ), c0 < 0 →
      (calculate_payback_period (c0 :: rest) = none ↔
        ∀ k < (c0 :: rest).length, cumulativeSum (c0 :: rest) k < 0) := by
    intro c0 rest hc0
    match rest with
    | [] =>
      constructor
      · intro _ k hk
        have hk0 : k = 0 := by
          simp only [List.length_cons, List.length_nil] at hk
          omega
        subst hk0
        simpa [cumulativeSum] using hc0
      · intro _
        rfl
    | r :: rest =>
      rw [calculate_payback_period, if_neg (by simp only [List.length_cons]; omega)]
      rw [paybackLoop_none_iff]
      unfold cumulativeSum
      constructor
      · intro h k hk
        have := h k hk
        simpa using this
      · intro h k hk
        have := h k hk
        simpa using this
  have hcross : ∀ (c0 : ℚ) (rest : List ℚ) (k : Nat), c0 < 0 →
      k < (c0 :: rest).length →
      0 ≤ cumulativeSum (c0 :: rest) k →
      (∀ j < k, cumulativeSum (c0 :: rest) j < 0) →
      calculate_payback_period (c0 :: rest) =
        some ((k : ℚ) - 1 + -(((c0 :: rest).take k).sum) / (c0 :: rest).getD k 0) := by
    intro c0 rest k hc0 hk hge hlt
    have hk0 : k ≠ 0 := by
      intro h
      subst h
      unfold cumulativeSum at hge
      simp only [List.take_succ_cons, List.take_zero, List.sum_cons, List.sum_nil,
        add_zero] at hge
      exact absurd hge (not_le.mpr hc0)
    rw [calculate_payback_period,
      if_neg (by simp only [List.length_cons] at hk ⊢; omega)]
    rw [paybackLoop_crossing (c0 :: rest) 0 0 k hk
      (by simpa [cumulativeSum] using hge)
      (fun j hj => by
        have := hlt j hj
        simpa [cumulativeSum] using this)]
    rw [if_neg (by omega)]
    norm_num
  refine ⟨hnone, hcross, ?_, ?_⟩
  · norm_num [calculate_payback_period, paybackLoop]
  · norm_num [calculate_payback_period, paybackLoop]

/-- Witness for `payback_period_spec`: the crossing formula instantiated on
the spec's example, whose first crossing is at year 4. -/
theorem payback_period_spec_witness :
    calculate_payback_period [-1000, 300, 300, 300, 300]
      = some ((4 : ℚ) - 1 + -((([-1000, 300, 300, 300, 300] : List ℚ).take 4).sum)
          / ([-1000, 300, 300, 300, 300] : List ℚ).getD 4 0) :=
  payback_period_spec.2.1 (-1000) [300, 300, 300, 300] 4 (by norm_num) (by decide)
    (by norm_num [cumulativeSum])
    (fun j hj => by
      interval_cases j <;> norm_num [cumulativeSum])

/-! ## C6: `aggregate_annual` -/

/-- A year slice's sum as an indexed sum over the original list. -/
theorem slice_sum (l : List ℚ) (s n : Nat) :
    ((l.drop s).take n).sum = ∑ i ∈ Finset.range n, l.getD (s + i) 0 := by
  rw [sum_take_eq]
  exact Finset.sum_congr rfl fun i _ => getD_drop_eq l s i

/-- `getD` on a mapped `range` list evaluates the function. -/
theorem getD_map_range (f : Nat → ℚ) {y k : Nat} (h : k < y) :
    ((List.range y).map f).getD k 0 = f k := by
  rw [List.getD_eq_getElem?_getD, List.getElem?_map, List.getElem?_range h]
  rfl

/-- A zipped year slice's product sum as an indexed sum, for in-range
slices. -/
theorem slice_zip_sum (a b : List ℚ) (s n : Nat) (ha : s + n ≤ a.length)
    (hb : s + n ≤ b.length) :
    ((((a.drop s).take n).zip ((b.drop s).take n)).map fun p => p.1 * p.2).sum
      = ∑ i ∈ Finset.range n, a.getD (s + i) 0 * b.getD (s + i) 0 := by
  rw [zip_mul_sum]
  have hA : ((a.drop s).take n).length = n := by
    rw [List.length_take, List.length_drop]
    omega
  have hB : ((b.drop s).take n).length = n := by
    rw [List.length_take, List.length_drop]
    omega
  rw [hA, hB, Nat.min_self]
  refine Finset.sum_congr rfl fun i hi => ?_
  have hi' := Finset.mem_range.mp hi
  rw [getD_take_eq _ hi', getD_take_eq _ hi', getD_drop_eq, getD_drop_eq]

/-- `aggregate_annual` without prices, with the validations and slices
spelled out. -/
theorem aggregate_annual_none (hv : List ℚ) (years : Nat) :
    aggregate_annual hv none years
      = if hv.length ≠ 8760 * years then
          Except.error "Expected hourly values count to match years"
        else Except.ok ((List.range years).map fun year =>
          ((hv.drop (year * 8760)).take 8760).sum) := rfl

/-- `aggregate_annual` with prices, with the validations and slices spelled
out. -/
theorem aggregate_annual_some (hv ps : List ℚ) (years : Nat) :
    aggregate_annual hv (some ps) years
      = if hv.length ≠ 8760 * years then
          Except.error "Expected hourly values count to match years"
        else if ps.length ≠ 8760 * years then
          Except.error "Prices length does not match hourly_values length"
        else Except.ok ((List.range years).map fun year =>
          ((((hv.drop (year * 8760)).take 8760).zip ((ps.drop (year * 8760)).take 8760)).map
            fun p => p.1 * p.2).sum) := rfl

/-- C6: `aggregate_annual` succeeds exactly when the hourly series has
`8760 × years` entries and any price series matches its length; on success
it returns one entry per year, entry `k` summing hours
`[k·8760, (k+1)·8760)` (as value×price products when prices are given);
and the constant series example evaluates as stated. -/
theorem aggregate_annual_spec :
    (∀ (hv : List ℚ) (prices : Option (List ℚ)) (years : Nat),
        (∃ out, aggregate_annual hv prices years = Except.ok out) ↔
          (hv.length = 8760 * years ∧ ∀ ps ∈ prices, ps.length = hv.length)) ∧
    (∀ (hv : List ℚ) (years : Nat) (out : List ℚ),
        aggregate_annual hv none years = Except.ok out →
          out.length = years ∧
          ∀ k < years, out.getD k 0 = ∑ i ∈ Finset.range 8760, hv.getD (k * 8760 + i) 0) ∧
    (∀ (hv ps : List ℚ) (years : Nat) (out : List ℚ),
        aggregate_annual hv (some ps) years = Except.ok out →
          out.length = years ∧
          ∀ k < years, out.getD k 0
            = ∑ i ∈ Finset.range 8760, hv.getD (k * 8760 + i) 0 * ps.getD (k * 8760 + i) 0) ∧
    aggregate_annual (List.replicate 8760 1) none 1 = Except.ok [8760] := by
  refine ⟨fun hv prices years => ?_, fun hv years out h => ?_, fun hv ps years out h => ?_, ?_⟩
  · match prices with
    | none =>
      rw [aggregate_annual_none]
      by_cases h1 : hv.length = 8760 * years
      · rw [if_neg (not_not_intro h1)]
        exact ⟨fun _ => ⟨h1, by simp⟩, fun _ => ⟨_, rfl⟩⟩
      · rw [if_pos h1]
        constructor
        · rintro ⟨out, hout⟩
          cases hout
        · rintro ⟨hl, -⟩
          exact absurd hl h1
    | some ps =>
      rw [aggregate_annual_some]
      by_cases h1 : hv.length = 8760 * years
      · rw [if_neg (not_not_intro h1)]
        by_cases h2 : ps.length = 8760 * years
        · rw [if_neg (not_not_intro h2)]
          refine ⟨fun _ => ⟨h1, ?_⟩, fun _ => ⟨_, rfl⟩⟩
          intro qs hqs
          cases hqs
          omega
        · rw [if_pos h2]
          constructor
          · rintro ⟨out, hout⟩
            cases hout
          · rintro ⟨hl, hp⟩
            exact absurd ((hp ps rfl).trans hl) h2
      · rw [if_pos h1]
        constructor
        · rintro ⟨out, hout⟩
          cases hout
        · rintro ⟨hl, -⟩
          exact absurd hl h1
  · rw [aggregate_annual_none] at h
    by_cases h1 : hv.length = 8760 * years
    · rw [if_neg (not_not_intro h1)] at h
      injection h with h
      subst h
      refine ⟨by simp, fun k hk => ?_⟩
      rw [getD_map_range _ hk, slice_sum]
    · rw [if_pos h1] at h
      cases h
  · rw [aggregate_annual_some] at h
    by_cases h1 : hv.length = 8760 * years
    · rw [if_neg (not_not_intro h1)] at h
      by_cases h2 : ps.length = 8760 * years
      · rw [if_neg (not_not_intro h2)] at h
        injection h with h
        subst h
        refine ⟨by simp, fun k hk => ?_⟩
        rw [getD_map_range _ hk, slice_zip_sum hv ps (k * 8760) 8760 (by omega) (by omega)]
      · rw [if_pos h2] at h
        cases h
    · rw [if_pos h1] at h
      cases h
  · rw [aggregate_annual_none,
      if_neg (show ¬((List.replicate 8760 (1 : ℚ)).length ≠ 8760 * 1) by
        rw [List.length_replicate]; omega),
      show List.range 1 = [0] from rfl]
    simp only [List.map_cons, List.map_nil, Nat.zero_mul, List.drop_zero]
    rw [List.take_of_length_le (by rw [List.length_replicate]), List.sum_replicate]
    norm_num

/-- Witness for `aggregate_annual_spec`: the per-year entry formula
instantiated on the constant series, discharging its success hypothesis
with the theorem's own concrete conjunct. -/
theorem aggregate_annual_spec_witness :
    ([8760] : List ℚ).length = 1 ∧
    ∀ k < 1, ([8760] : List ℚ).getD k 0
      = ∑ i ∈ Finset.range 8760, (List.replicate 8760 (1 : ℚ)).getD (k * 8760 + i) 0 :=
  aggregate_annual_spec.2.1 (List.replicate 8760 1) 1 [8760] aggregate_annual_spec.2.2.2

/-! ## Request models (`models/common.py`, `models/requests.py`) -/

/-- A device as the site-level validator sees it: `validate_unique_names`
reads only `d.name`; the per-kind property validation (devices.py) is
independent of the site-level uniqueness check modelled here. -/
structure Device where
  name : String
  deriving DecidableEq, Repr

/-- `Site` (requests.py lines 10-28). -/
structure Site where
  site_id : String
  description : Option String
  devices : List Device
  deriving Repr

/-- Construction of `Site`: the `devices` field carries `min_length=1`, and
`validate_unique_names` rejects the list when `len(names) != len(set(names))`
(`set` cardinality is the deduplicated length). -/
def mkSite (site_id : String) (description : Option String) (devices : List Device) :
    Except String Site :=
  if devices.length < 1 then
    Except.error "List should have at least 1 item"
  else if (devices.map Device.name).dedup.length ≠ (devices.map Device.name).length then
    Except.error "Device names must be unique within a site"
  else Except.ok ⟨site_id, description, devices⟩

/-- The timezone attached to a Python `datetime`: `none` models a naive
datetime (`tzinfo is None`), `some key` an explicit zone identified by its
key (`ZoneInfo("Europe/Prague")`, `ZoneInfo("UTC")`, ...). -/
structure PyDatetime where
  tzKey : Option String
  deriving DecidableEq, Repr

/-- `Resolution` (common.py lines 11-25). -/
inductive Resolution
  | minutes15
  | hour1
  deriving DecidableEq, Repr

/-- `TimeSpan` (common.py lines 28-65): only the validated fields are
modelled; `end`, `duration` and `years` are computed properties derived
from them. -/
structure TimeSpan where
  start : PyDatetime
  intervals : Int
  resolution : Resolution
  deriving DecidableEq, Repr

/-- Construction of `TimeSpan`: the `intervals` field carries
`ge=1, le=100_000`, and `validate_timezone` requires `start` to carry a
timezone equal to `ZoneInfo("Europe/Prague")`. -/
def mkTimeSpan (start : PyDatetime) (intervals : Int) (resolution : Resolution) :
    Except String TimeSpan :=
  if start.tzKey = none then
    Except.error "Timezone must be specified"
  else if start.tzKey ≠ some "Europe/Prague" then
    Except.error "Timezone must be Europe/Prague"
  else if intervals < 1 then
    Except.error "Input should be greater than or equal to 1"
  else if 100000 < intervals then
    Except.error "Input should be less than or equal to 100000"
  else Except.ok ⟨start, intervals, resolution⟩

/-- Construction of `TimeSpanInvestment` (requests.py lines 65-89): the base
`TimeSpan` validation plus `validate_max_intervals` (rejects
`intervals > 100_000`, redundant under the base bound) and
`validate_resolution` (only 1-hour resolution). -/
def mkTimeSpanInvestment (start : PyDatetime) (intervals : Int) (resolution : Resolution) :
    Except String TimeSpan :=
  match mkTimeSpan start intervals resolution with
  | Except.error e => Except.error e
  | Except.ok ts =>
    if 100000 < ts.intervals then
      Except.error "Investment client limited to 100,000 intervals"
    else if ts.resolution ≠ Resolution.hour1 then
      Except.error "Investment client only supports 1-hour resolution"
    else Except.ok ts

/-- The Prague-timezone start instant used by the concrete cases below. -/
def pragueStart : PyDatetime := ⟨some "Europe/Prague"⟩

/-- C7: every successfully constructed `Site` keeps its device list and has
pairwise-distinct device names, and two devices both named "B1" are rejected
at construction time. -/
theorem site_unique_names :
    (∀ (site_id : String) (description : Option String) (devices : List Device) (s : Site),
        mkSite site_id description devices = Except.ok s →
          s.devices = devices ∧ (devices.map Device.name).Nodup) ∧
    mkSite "S1" none [⟨"B1"⟩, ⟨"B1"⟩]
      = Except.error "Device names must be unique within a site" := by
  constructor
  · intro site_id description devices s h
    rw [mkSite] at h
    by_cases h1 : devices.length < 1
    · rw [if_pos h1] at h
      cases h
    · rw [if_neg h1] at h
      by_cases h2 : (devices.map Device.name).dedup.length = (devices.map Device.name).length
      · rw [if_neg (not_not_intro h2)] at h
        injection h with h
        subst h
        refine ⟨rfl, ?_⟩
        rw [← List.dedup_eq_self]
        exact ((devices.map Device.name).dedup_sublist).eq_of_length h2
      · rw [if_pos h2] at h
        cases h
  · rfl

/-- Witness for `site_unique_names` on a two-device site with distinct
names. -/
theorem site_unique_names_witness :
    (⟨"S1", none, [⟨"B1"⟩, ⟨"B2"⟩]⟩ : Site).devices = [⟨"B1"⟩, ⟨"B2"⟩] ∧
    (([⟨"B1"⟩, ⟨"B2"⟩] : List Device).map Device.name).Nodup :=
  site_unique_names.1 "S1" none [⟨"B1"⟩, ⟨"B2"⟩] ⟨"S1", none, [⟨"B1"⟩, ⟨"B2"⟩]⟩ (by rfl)

/-- C8: with a valid Prague start, constructing the investment time span
succeeds exactly when `1 ≤ intervals ≤ 100000`; `100000` is accepted while
`100001` and `0` are rejected at construction time. -/
theorem timespan_interval_bounds :
    (∀ (start : PyDatetime) (n : Int), start.tzKey = some "Europe/Prague" →
        ((∃ ts, mkTimeSpanInvestment start n Resolution.hour1 = Except.ok ts) ↔
          (1 ≤ n ∧ n ≤ 100000))) ∧
    mkTimeSpanInvestment pragueStart 100000 Resolution.hour1
      = Except.ok ⟨pragueStart, 100000, Resolution.hour1⟩ ∧
    mkTimeSpanInvestment pragueStart 100001 Resolution.hour1
      = Except.error "Input should be less than or equal to 100000" ∧
    mkTimeSpanInvestment pragueStart 0 Resolution.hour1
      = Except.error "Input should be greater than or equal to 1" := by
  refine ⟨fun start n hPrague => ?_, rfl, rfl, rfl⟩
  rw [mkTimeSpanInvestment.eq_def, mkTimeSpan,
    if_neg (by rw [hPrague]; exact fun h => Option.noConfusion h),
    if_neg (not_not_intro hPrague)]
  by_cases h1 : n < 1
  · rw [if_pos h1]
    exact ⟨fun ⟨ts, hts⟩ => absurd hts (by simp), fun h => absurd h1 (by omega)⟩
  · rw [if_neg h1]
    by_cases h2 : (100000 : Int) < n
    · rw [if_pos h2]
      exact ⟨fun ⟨ts, hts⟩ => absurd hts (by simp), fun h => absurd h2 (by omega)⟩
    · rw [if_neg h2]
      simp only
      rw [if_neg h2, if_neg (by simp)]
      exact ⟨fun _ => by omega, fun _ => ⟨_, rfl⟩⟩

/-- Witness for `timespan_interval_bounds` at the Prague start. -/
theorem timespan_interval_bounds_witness :
    (∃ ts, mkTimeSpanInvestment pragueStart 50 Resolution.hour1 = Except.ok ts) ↔
      (1 ≤ (50 : Int) ∧ (50 : Int) ≤ 100000) :=
  timespan_interval_bounds.1 pragueStart 50 rfl

/-- C10: with in-range intervals, constructing a `TimeSpan` succeeds exactly
when the start carries the `Europe/Prague` timezone; a naive start and a UTC
start are both rejected at construction time. -/
theorem timespan_timezone_strict :
    (∀ (start : PyDatetime) (n : Int) (res : Resolution), 1 ≤ n → n ≤ 100000 →
        ((∃ ts, mkTimeSpan start n res = Except.ok ts) ↔
          start.tzKey = some "Europe/Prague")) ∧
    mkTimeSpan ⟨none⟩ 24 Resolution.hour1 = Except.error "Timezone must be specified" ∧
    mkTimeSpan ⟨some "UTC"⟩ 24 Resolution.hour1
      = Except.error "Timezone must be Europe/Prague" := by
  refine ⟨fun start n res h1 h2 => ?_, rfl, rfl⟩
  rw [mkTimeSpan]
  cases hk : start.tzKey with
  | none =>
    rw [if_pos rfl]
    exact ⟨fun ⟨ts, hts⟩ => absurd hts (by simp), fun h => Option.noConfusion h⟩
  | some key =>
    rw [if_neg (by simp)]
    by_cases hkey : key = "Europe/Prague"
    · subst hkey
      rw [if_neg (not_not_intro rfl), if_neg (by omega), if_neg (by omega)]
      exact ⟨fun _ => rfl, fun _ => ⟨_, rfl⟩⟩
    · rw [if_pos (by simpa using hkey)]
      refine ⟨fun ⟨ts, hts⟩ => absurd hts (by simp), fun h => ?_⟩
      injection h with h
      exact absurd h hkey

/-- Witness for `timespan_timezone_strict` at in-range intervals. -/
theorem timespan_timezone_strict_witness :
    (∃ ts, mkTimeSpan ⟨some "UTC"⟩ 24 Resolution.hour1 = Except.ok ts) ↔
      (⟨some "UTC"⟩ : PyDatetime).tzKey = some "Europe/Prague" :=
  timespan_timezone_strict.1 ⟨some "UTC"⟩ 24 Resolution.hour1 (by omega) (by omega)

/-! ## HTTP error classification and retry loop (`api/client.py`, `exceptions.py`) -/

/-- The `details` payload entries read by `_handle_error`
(`details.get("requested")`, `details.get("max_allowed")`). -/
structure ErrDetails where
  requested : Option Int
  max_allowed : Option Int
  deriving DecidableEq, Repr

/-- The parsed error envelope `response.json()["error"]` with its optional
`code`, `message` and `details` entries. -/
structure ErrorBody where
  code : Option String
  message : Option String
  details : Option ErrDetails
  deriving DecidableEq, Repr

/-- An HTTP response as `_handle_error` sees it: numeric status code, the
parsed error envelope (`none` when `response.json()` raises), and the raw
body text used as the fallback message. -/
structure HttpResponse where
  status : Nat
  body : Option ErrorBody
  text : String
  deriving DecidableEq, Repr

/-- The typed exceptions of `exceptions.py` raised by the client. -/
inductive SCError
  | validation (message : String) (code : Option String) (details : Option ErrDetails)
  | authentication (message : String) (code : Option String) (details : Option ErrDetails)
  | forbiddenFeature (message : String) (code : Option String) (details : Option ErrDetails)
  | limitExceeded (message : String) (requested max_allowed : Option Int)
      (code : Option String) (details : Option ErrDetails)
  | jobNotFound (message : String) (code : Option String) (details : Option ErrDetails)
  | timeoutErr (message : String) (timeout : Option ℚ) (code : Option String)
  | optimization (message : String) (code : Option String) (details : Option String)
  | apiErr (message : String) (code : Option String) (details : Option ErrDetails)
  deriving DecidableEq, Repr

/-- Python's `"job" in message.lower()` substring test. -/
def containsJob (s : String) : Bool := (s.toLower.splitOn "job").length ≠ 1

/-- `_handle_error` (client.py lines 97-139): extract `code`, `message`
(defaulting to "Unknown error", or to the raw text / "HTTP status" when the
body is not a JSON envelope) and `details`, then classify by status code.
The f-string renderings of the status code and server message are kept
abstract as fixed tags. -/
def handle_error (r : HttpResponse) : SCError :=
  let code := match r.body with
    | some e => e.code
    | none => none
  let message := match r.body with
    | some e => e.message.getD "Unknown error"
    | none => if r.text = "" then "HTTP status" else r.text
  let details := match r.body with
    | some e => e.details
    | none => none
  if r.status = 400 then SCError.validation message code details
  else if r.status = 401 then SCError.authentication message code details
  else if r.status = 403 then
    if code = some "forbidden_feature" then SCError.forbiddenFeature message code details
    else if code = some "limit_exceeded" ∨ code = some "invalid_resolution" then
      SCError.limitExceeded message (details.bind ErrDetails.requested)
        (details.bind ErrDetails.max_allowed) code details
    else SCError.apiErr message code details
  else if r.status = 404 then
    if containsJob message then SCError.jobNotFound message code details
    else SCError.apiErr message code details
  else if r.status = 408 ∨ r.status = 504 then SCError.timeoutErr message none code
  else if 500 ≤ r.status then SCError.apiErr ("Server error: " ++ message) code details
  else SCError.apiErr message code details

/-- One network attempt as seen by `_request_with_retry`: an HTTP response,
an `httpx.TimeoutException`, or an `httpx.RequestError` (connection
error). -/
inductive HttpAttempt
  | resp (r : HttpResponse)
  | timeoutExc
  | connErr (message : String)
  deriving DecidableEq, Repr

/-- The `for attempt in range(max_retries)` loop of `_request_with_retry`
(client.py lines 141-196) over an explicit trace of attempt outcomes:
`remaining` counts the attempts still available
(`attempt = max_retries - remaining`), `lastExc` is `last_exception`, and
the returned list collects the backoff delays slept, in order
(`2 ** attempt` before each retry).  A response with a 4xx status other
than 408/429 is classified and raised at once; 5xx (and 408/429) responses,
timeouts and connection errors are retried while attempts remain, and on
the final attempt the error-response is classified and raised or the last
exception is re-raised. -/
def retryGo (events : Nat → HttpAttempt) (max_retries : Nat) (client_timeout : ℚ) :
    Nat → Option SCError → List Nat → Except SCError HttpResponse × List Nat
  | 0, lastExc, delays =>
    (match lastExc with
     | some e => Except.error e
     | none => Except.error (SCError.apiErr "Request failed after retries" none none), delays)
  | remaining + 1, lastExc, delays =>
    let attempt := max_retries - (remaining + 1)
    match events attempt with
    | HttpAttempt.resp r =>
      if r.status < 400 then (Except.ok r, delays)
      else if 400 ≤ r.status ∧ r.status < 500 ∧ r.status ≠ 408 ∧ r.status ≠ 429 then
        (Except.error (handle_error r), delays)
      else if 0 < remaining then
        retryGo events max_retries client_timeout remaining lastExc (delays ++ [2 ^ attempt])
      else (Except.error (handle_error r), delays)
    | HttpAttempt.timeoutExc =>
      let e := SCError.timeoutErr "Request timeout" (some client_timeout) none
      if 0 < remaining then
        retryGo events max_retries client_timeout remaining (some e) (delays ++ [2 ^ attempt])
      else (Except.error e, delays)
    | HttpAttempt.connErr msg =>
      let e := SCError.apiErr ("Request failed: " ++ msg) none none
      if 0 < remaining then
        retryGo events max_retries client_timeout remaining (some e) (delays ++ [2 ^ attempt])
      else (Except.error e, delays)

/-- `_request_with_retry` itself: run the loop with all `max_retries`
attempts available, no recorded exception, and no sleeps yet. -/
def request_with_retry (events : Nat → HttpAttempt) (max_retries : Nat) (client_timeout : ℚ) :
    Except SCError HttpResponse × List Nat :=
  retryGo events max_retries client_timeout max_retries none []

/-- The retry loop only ever reads attempts `0 .. max_retries - 1` of the
event trace: traces agreeing there give identical results. -/
theorem retryGo_agree (ev ev' : Nat → HttpAttempt) (m : Nat) (ct : ℚ) :
    ∀ (r : Nat) (lastE : Option SCError) (ds : List Nat), r ≤ m →
      (∀ i < m, ev i = ev' i) →
      retryGo ev m ct r lastE ds = retryGo ev' m ct r lastE ds := by
  intro r
  induction r with
  | zero => intro lastE ds _ _; rfl
  | succ r ih =>
    intro lastE ds hr hagree
    rw [retryGo]
    conv_rhs => rw [retryGo]
    rw [hagree (m - (r + 1)) (by omega)]
    cases ev' (m - (r + 1)) with
    | resp x =>
      simp only
      by_cases h1 : x.status < 400
      · rw [if_pos h1, if_pos h1]
      · rw [if_neg h1, if_neg h1]
        by_cases h2 : 400 ≤ x.status ∧ x.status < 500 ∧ x.status ≠ 408 ∧ x.status ≠ 429
        · rw [if_pos h2, if_pos h2]
        · rw [if_neg h2, if_neg h2]
          by_cases h3 : 0 < r
          · rw [if_pos h3, if_pos h3]
            exact ih lastE (ds ++ [2 ^ (m - (r + 1))]) (by omega) hagree
          · rw [if_neg h3, if_neg h3]
    | timeoutExc =>
      simp only
      by_cases h3 : 0 < r
      · rw [if_pos h3, if_pos h3]
        exact ih _ _ (by omega) hagree
      · rw [if_neg h3, if_neg h3]
    | connErr msg =>
      simp only
      by_cases h3 : 0 < r
      · rw [if_pos h3, if_pos h3]
        exact ih _ _ (by omega) hagree
      · rw [if_neg h3, if_neg h3]

/-- Exhausting all attempts on request timeouts: every retry sleeps
`2 ^ attempt`, and the last observed timeout error is raised. -/
theorem retryGo_timeout_all (ev : Nat → HttpAttempt) (m : Nat) (ct : ℚ)
    (hall : ∀ i < m, ev i = HttpAttempt.timeoutExc) :
    ∀ (r : Nat), 1 ≤ r → r ≤ m → ∀ (lastE : Option SCError) (ds : List Nat),
      retryGo ev m ct r lastE ds
        = (Except.error (SCError.timeoutErr "Request timeout" (some ct) none),
           ds ++ (List.range (r - 1)).map fun j => 2 ^ (m - r + j)) := by
  intro r
  induction r with
  | zero => intro h1; exact absurd h1 (by omega)
  | succ r ih =>
    intro h1 h2 lastE ds
    rw [retryGo, hall (m - (r + 1)) (by omega)]
    simp only
    by_cases hr : 0 < r
    · rw [if_pos hr, ih (by omega) (by omega)]
      refine congrArg _ ?_
      rw [List.append_assoc]
      refine congrArg _ ?_
      obtain ⟨r', rfl⟩ : ∃ r', r = r' + 1 := ⟨r - 1, by omega⟩
      rw [show r' + 1 + 1 - 1 = r' + 1 from by omega, List.range_succ_eq_map, List.map_cons,
        List.map_map]
      simp only [Nat.add_zero, List.cons_append, List.nil_append]
      refine congrArg₂ _ rfl ?_
      rw [show r' + 1 - 1 = r' from by omega]
      refine List.map_congr_left fun j hj => ?_
      simp only [Function.comp_apply, Nat.succ_eq_add_one]
      refine congrArg (2 ^ ·) ?_
      omega
    · have hr0 : r = 0 := by omega
      subst hr0
      rw [if_neg (by omega)]
      simp

/-- Exhausting all attempts on 5xx responses: every retry sleeps
`2 ^ attempt`, and the classification of the last response is raised. -/
theorem retryGo_server_error_all (ev : Nat → HttpAttempt) (rs : Nat → HttpResponse)
    (m : Nat) (ct : ℚ)
    (hall : ∀ i < m, ev i = HttpAttempt.resp (rs i))
    (hstatus : ∀ i < m, 500 ≤ (rs i).status) :
    ∀ (r : Nat), 1 ≤ r → r ≤ m → ∀ (lastE : Option SCError) (ds : List Nat),
      retryGo ev m ct r lastE ds
        = (Except.error (handle_error (rs (m - 1))),
           ds ++ (List.range (r - 1)).map fun j => 2 ^ (m - r + j)) := by
  intro r
  induction r with
  | zero => intro h1; exact absurd h1 (by omega)
  | succ r ih =>
    intro h1 h2 lastE ds
    rw [retryGo, hall (m - (r + 1)) (by omega)]
    simp only
    have hs := hstatus (m - (r + 1)) (by omega)
    rw [if_neg (by omega), if_neg (by omega)]
    by_cases hr : 0 < r
    · rw [if_pos hr, ih (by omega) (by omega)]
      refine congrArg _ ?_
      rw [List.append_assoc]
      refine congrArg _ ?_
      obtain ⟨r', rfl⟩ : ∃ r', r = r' + 1 := ⟨r - 1, by omega⟩
      rw [show r' + 1 + 1 - 1 = r' + 1 from by omega, List.range_succ_eq_map, List.map_cons,
        List.map_map]
      simp only [Nat.add_zero, List.cons_append, List.nil_append]
      refine congrArg₂ _ rfl ?_
      rw [show r' + 1 - 1 = r' from by omega]
      refine List.map_congr_left fun j hj => ?_
      simp only [Function.comp_apply, Nat.succ_eq_add_one]
      refine congrArg (2 ^ ·) ?_
      omega
    · have hr0 : r = 0 := by omega
      subst hr0
      rw [if_neg (by omega)]
      rw [show m - 1 = m - (0 + 1) from by omega]
      simp

/-- Exhausting all attempts on connection errors: every retry sleeps
`2 ^ attempt`, and the error built from the last observed failure is
raised. -/
theorem retryGo_conn_error_all (ev : Nat → HttpAttempt) (msgs : Nat → String)
    (m : Nat) (ct : ℚ)
    (hall : ∀ i < m, ev i = HttpAttempt.connErr (msgs i)) :
    ∀ (r : Nat), 1 ≤ r → r ≤ m → ∀ (lastE : Option SCError) (ds : List Nat),
      retryGo ev m ct r lastE ds
        = (Except.error (SCError.apiErr ("Request failed: " ++ msgs (m - 1)) none none),
           ds ++ (List.range (r - 1)).map fun j => 2 ^ (m - r + j)) := by
  intro r
  induction r with
  | zero => intro h1; exact absurd h1 (by omega)
  | succ r ih =>
    intro h1 h2 lastE ds
    rw [retryGo, hall (m - (r + 1)) (by omega)]
    simp only
    by_cases hr : 0 < r
    · rw [if_pos hr, ih (by omega) (by omega)]
      refine congrArg _ ?_
      rw [List.append_assoc]
      refine congrArg _ ?_
      obtain ⟨r', rfl⟩ : ∃ r', r = r' + 1 := ⟨r - 1, by omega⟩
      rw [show r' + 1 + 1 - 1 = r' + 1 from by omega, List.range_succ_eq_map, List.map_cons,
        List.map_map]
      simp only [Nat.add_zero, List.cons_append, List.nil_append]
      refine congrArg₂ _ rfl ?_
      rw [show r' + 1 - 1 = r' from by omega]
      refine List.map_congr_left fun j hj => ?_
      simp only [Function.comp_apply, Nat.succ_eq_add_one]
      refine congrArg (2 ^ ·) ?_
      omega
    · have hr0 : r = 0 := by omega
      subst hr0
      rw [if_neg (by omega)]
      rw [show m - 1 = m - (0 + 1) from by omega]
      simp

/-- C2 (amended): per HTTP call, at most `max_retries` attempts are made
(the result only depends on that prefix of the trace); an HTTP 500 followed
by an HTTP 200 succeeds after exactly one backoff sleep of `2^0`; a 4xx
response other than 408 or 429 raises its classified error on the first
attempt with zero retries; when every attempt fails (timeouts, 5xx
responses, or connection errors), each retry `i` is preceded by a `2^i`
delay and the last observed error is raised; and the remaining retryable
conditions — a 408 or 429 response, and a connection error — are likewise
retried: followed by an HTTP 200 they succeed after exactly one backoff
sleep of `2^0`. -/
theorem retry_policy_spec :
    (∀ (ev ev' : Nat → HttpAttempt) (m : Nat) (ct : ℚ),
        (∀ i < m, ev i = ev' i) →
        request_with_retry ev m ct = request_with_retry ev' m ct) ∧
    (∀ (ev : Nat → HttpAttempt) (m : Nat) (ct : ℚ) (r0 r1 : HttpResponse),
        2 ≤ m → ev 0 = HttpAttempt.resp r0 → 500 ≤ r0.status →
        ev 1 = HttpAttempt.resp r1 → r1.status < 400 →
        request_with_retry ev m ct = (Except.ok r1, [1])) ∧
    (∀ (ev : Nat → HttpAttempt) (m : Nat) (ct : ℚ) (r0 : HttpResponse),
        1 ≤ m → ev 0 = HttpAttempt.resp r0 →
        400 ≤ r0.status → r0.status < 500 → r0.status ≠ 408 → r0.status ≠ 429 →
        request_with_retry ev m ct = (Except.error (handle_error r0), [])) ∧
    (∀ (ev : Nat → HttpAttempt) (m : Nat) (ct : ℚ),
        1 ≤ m → (∀ i < m, ev i = HttpAttempt.timeoutExc) →
        request_with_retry ev m ct
          = (Except.error (SCError.timeoutErr "Request timeout" (some ct) none),
             (List.range (m - 1)).map fun j => 2 ^ j)) ∧
    (∀ (ev : Nat → HttpAttempt) (rs : Nat → HttpResponse) (m : Nat) (ct : ℚ),
        1 ≤ m → (∀ i < m, ev i = HttpAttempt.resp (rs i)) →
        (∀ i < m, 500 ≤ (rs i).status) →
        request_with_retry ev m ct
          = (Except.error (handle_error (rs (m - 1))),
             (List.range (m - 1)).map fun j => 2 ^ j)) ∧
    (∀ (ev : Nat → HttpAttempt) (m : Nat) (ct : ℚ) (r0 r1 : HttpResponse),
        2 ≤ m → ev 0 = HttpAttempt.resp r0 → (r0.status = 408 ∨ r0.status = 429) →
        ev 1 = HttpAttempt.resp r1 → r1.status < 400 →
        request_with_retry ev m ct = (Except.ok r1, [1])) ∧
    (∀ (ev : Nat → HttpAttempt) (m : Nat) (ct : ℚ) (msg : String) (r1 : HttpResponse),
        2 ≤ m → ev 0 = HttpAttempt.connErr msg →
        ev 1 = HttpAttempt.resp r1 → r1.status < 400 →
        request_with_retry ev m ct = (Except.ok r1, [1])) ∧
    (∀ (ev : Nat → HttpAttempt) (msgs : Nat → String) (m : Nat) (ct : ℚ),
        1 ≤ m → (∀ i < m, ev i = HttpAttempt.connErr (msgs i)) →
        request_with_retry ev m ct
          = (Except.error
              (SCError.apiErr ("Request failed: " ++ msgs (m - 1)) none none),
             (List.range (m - 1)).map fun j => 2 ^ j)) := by
  refine ⟨?_, ?_, ?_, ?_, ?_, ?_, ?_, ?_⟩
  · intro ev ev' m ct hagree
    exact retryGo_agree ev ev' m ct m none [] le_rfl hagree
  · intro ev m ct r0 r1 hm hev0 h500 hev1 h200
    obtain ⟨k, rfl⟩ : ∃ k, m = k + 2 := ⟨m - 2, by omega⟩
    rw [request_with_retry, retryGo, Nat.sub_self, hev0]
    simp only
    rw [if_neg (by omega), if_neg (by omega), if_pos (by omega), retryGo,
      show k + 2 - (k + 1) = 1 from by omega, hev1]
    simp only
    rw [if_pos h200]
    simp
  · intro ev m ct r0 hm hev0 h400 h450 h408 h429
    obtain ⟨k, rfl⟩ : ∃ k, m = k + 1 := ⟨m - 1, by omega⟩
    rw [request_with_retry, retryGo, Nat.sub_self, hev0]
    simp only
    rw [if_neg (by omega), if_pos ⟨h400, h450, h408, h429⟩]
  · intro ev m ct hm hall
    rw [request_with_retry, retryGo_timeout_all ev m ct hall m hm le_rfl]
    refine congrArg _ ?_
    rw [List.nil_append]
    refine List.map_congr_left fun j _ => ?_
    refine congrArg (2 ^ ·) ?_
    omega
  · intro ev rs m ct hm hall hstatus
    rw [request_with_retry, retryGo_server_error_all ev rs m ct hall hstatus m hm le_rfl]
    refine congrArg _ ?_
    rw [List.nil_append]
    refine List.map_congr_left fun j _ => ?_
    refine congrArg (2 ^ ·) ?_
    omega
  · intro ev m ct r0 r1 hm hev0 h48 hev1 h200
    obtain ⟨k, rfl⟩ : ∃ k, m = k + 2 := ⟨m - 2, by omega⟩
    rw [request_with_retry, retryGo, Nat.sub_self, hev0]
    simp only
    rw [if_neg (by omega), if_neg (by rcases h48 with h | h <;> omega),
      if_pos (by omega), retryGo,
      show k + 2 - (k + 1) = 1 from by omega, hev1]
    simp only
    rw [if_pos h200]
    simp
  · intro ev m ct msg r1 hm hev0 hev1 h200
    obtain ⟨k, rfl⟩ : ∃ k, m = k + 2 := ⟨m - 2, by omega⟩
    rw [request_with_retry, retryGo, Nat.sub_self, hev0]
    simp only
    rw [if_pos (by omega), retryGo,
      show k + 2 - (k + 1) = 1 from by omega, hev1]
    simp only
    rw [if_pos h200]
    simp
  · intro ev msgs m ct hm hall
    rw [request_with_retry, retryGo_conn_error_all ev msgs m ct hall m hm le_rfl]
    refine congrArg _ ?_
    rw [List.nil_append]
    refine List.map_congr_left fun j _ => ?_
    refine congrArg (2 ^ ·) ?_
    omega

/-- A concrete trace: HTTP 429 on the first attempt, HTTP 200 afterwards. -/
def ev429 : Nat → HttpAttempt := fun i =>
  if i = 0 then HttpAttempt.resp ⟨429, none, "rate limited"⟩
  else HttpAttempt.resp ⟨200, none, ""⟩

/-- A concrete trace answering HTTP 400 on every attempt. -/
def ev400 : Nat → HttpAttempt := fun _ => HttpAttempt.resp ⟨400, none, "bad request"⟩

/-- A concrete trace: HTTP 408 on the first attempt, HTTP 200 afterwards. -/
def ev408 : Nat → HttpAttempt := fun i =>
  if i = 0 then HttpAttempt.resp ⟨408, none, ""⟩
  else HttpAttempt.resp ⟨200, none, ""⟩

/-- A concrete trace failing with a connection error on every attempt. -/
def evconn : Nat → HttpAttempt := fun _ => HttpAttempt.connErr "boom"

/-- Witness for `retry_policy_spec`: an HTTP 400 raises its classified
error immediately with zero backoff sleeps; an HTTP 408 is retried and the
call succeeds with the follow-up 200 after one backoff sleep; two
connection errors exhaust `max_retries = 2` with one backoff sleep and
raise the last connection error. -/
theorem retry_policy_spec_witness :
    request_with_retry ev400 3 3600
      = (Except.error (handle_error ⟨400, none, "bad request"⟩), []) ∧
    request_with_retry ev408 3 3600 = (Except.ok ⟨200, none, ""⟩, [1]) ∧
    request_with_retry evconn 2 3600
      = (Except.error
          (SCError.apiErr ("Request failed: " ++ "boom") none none), [1]) :=
  ⟨retry_policy_spec.2.2.1 ev400 3 3600 ⟨400, none, "bad request"⟩ (by omega) rfl
      (by decide) (by decide) (by decide) (by decide),
   retry_policy_spec.2.2.2.2.2.1 ev408 3 3600 ⟨408, none, ""⟩ ⟨200, none, ""⟩
      (by omega) rfl (Or.inl rfl) rfl (by decide),
   retry_policy_spec.2.2.2.2.2.2.2 evconn (fun _ => "boom") 2 3600 (by omega)
      (fun _ _ => rfl)⟩

/-- Counterexample to C2 as stated: a 429 response — a 4xx other than 408 —
is retried rather than raised on the first attempt: with max_retries = 3 the
call sleeps one backoff delay and then succeeds with the second response. -/
theorem retry_429_cex :
    request_with_retry ev429 3 3600 = (Except.ok ⟨200, none, ""⟩, [1]) ∧
    request_with_retry ev429 3 3600
      ≠ (Except.error (handle_error ⟨429, none, "rate limited"⟩), []) := by
  constructor
  · rfl
  · intro h
    rw [show request_with_retry ev429 3 3600 = (Except.ok ⟨200, none, ""⟩, [1]) from rfl] at h
    exact absurd (congrArg Prod.snd h) (by decide)

/-! ## C1: `wait_for_completion` (client.py lines 340-394) -/

/-- Job status literals (`models/responses.py`). -/
inductive JobStatus
  | pending
  | running
  | completed
  | failed
  | cancelled
  deriving DecidableEq, Repr

/-- The `job.error` dict as `wait_for_completion` reads it: optional
`code`, `message` and `details` entries (`details` kept abstract as its
rendering). -/
structure JobError where
  code : Option String
  message : Option String
  details : Option String
  deriving DecidableEq, Repr

/-- A polled `Job` snapshot: status plus the optional error payload. -/
structure JobSnapshot where
  status : JobStatus
  error : Option JobError
  deriving DecidableEq, Repr

/-- Outcome of `wait_for_completion`: the fetched result, one of the raised
exceptions, or the end of the observed trace with the loop still polling. -/
inductive WaitOutcome
  | fetched
  | optimizationError (message : String) (code : Option String) (details : Option String)
  | cancelledError (message : String)
  | timedOut (timeout : ℚ)
  | pollsExhausted
  deriving DecidableEq, Repr

/-- The `while True` loop of `wait_for_completion` over an observed trace:
`polls` are the successive `get_job_status` snapshots, and `elapsed k` is
the value of `time.time() - start_time` at the timeout check after the
`k`-th poll.  Per iteration: poll once; on `completed` fetch and return; on
`failed` raise the optimization error carrying the payload's code, message
(default "Unknown error") and details; on `cancelled` raise the API error;
otherwise raise a timeout error when `elapsed > timeout`, else
`time.sleep(poll_interval)` (counted) and repeat. -/
def waitFrom (elapsed : Nat → ℚ) (timeout : Option ℚ) :
    List JobSnapshot → Nat → Nat → WaitOutcome × Nat
  | [], _, sleeps => (WaitOutcome.pollsExhausted, sleeps)
  | job :: rest, k, sleeps =>
    match job.status with
    | JobStatus.completed => (WaitOutcome.fetched, sleeps)
    | JobStatus.failed =>
      let msg := match job.error with
        | some e => e.message.getD "Unknown error"
        | none => "Unknown error"
      (WaitOutcome.optimizationError msg (job.error.bind JobError.code)
        (job.error.bind JobError.details), sleeps)
    | JobStatus.cancelled => (WaitOutcome.cancelledError "Job was cancelled", sleeps)
    | _ =>
      match timeout with
      | some t =>
        if t < elapsed k then (WaitOutcome.timedOut t, sleeps)
        else waitFrom elapsed timeout rest (k + 1) (sleeps + 1)
      | none => waitFrom elapsed timeout rest (k + 1) (sleeps + 1)

/-- `wait_for_completion` over an observed trace, from loop entry. -/
def wait_for_completion (elapsed : Nat → ℚ) (timeout : Option ℚ)
    (polls : List JobSnapshot) : WaitOutcome × Nat :=
  waitFrom elapsed timeout polls 0 0

/-- A status is non-terminal when it is `pending` or `running`. -/
def nonTerminal (s : JobStatus) : Prop :=
  s = JobStatus.pending ∨ s = JobStatus.running

/-- Stepping the wait loop through a prefix of non-terminal snapshots whose
timeout checks all pass: one sleep per prefix poll. -/
theorem waitFrom_prefix (elapsed : Nat → ℚ) (t : ℚ) :
    ∀ (pre tail : List JobSnapshot) (k sleeps : Nat),
      (∀ s ∈ pre, nonTerminal s.status) →
      (∀ i < pre.length, elapsed (k + i) ≤ t) →
      waitFrom elapsed (some t) (pre ++ tail) k sleeps
        = waitFrom elapsed (some t) tail (k + pre.length) (sleeps + pre.length)
  | [], tail, k, sleeps => by
    intro _ _
    simp
  | job :: pre, tail, k, sleeps => by
    intro hpre helapsed
    rw [List.cons_append, waitFrom]
    have hnt : nonTerminal job.status := hpre job (by simp)
    have hel : elapsed k ≤ t := by
      have := helapsed 0 (by simp)
      simpa using this
    have hstep :
        (match job.status with
          | JobStatus.completed => (WaitOutcome.fetched, sleeps)
          | JobStatus.failed =>
            let msg := match job.error with
              | some e => e.message.getD "Unknown error"
              | none => "Unknown error"
            (WaitOutcome.optimizationError msg (job.error.bind JobError.code)
              (job.error.bind JobError.details), sleeps)
          | JobStatus.cancelled => (WaitOutcome.cancelledError "Job was cancelled", sleeps)
          | _ =>
            match some t with
            | some t =>
              if t < elapsed k then (WaitOutcome.timedOut t, sleeps)
              else waitFrom elapsed (some t) (pre ++ tail) (k + 1) (sleeps + 1)
            | none => waitFrom elapsed (some t) (pre ++ tail) (k + 1) (sleeps + 1))
          = waitFrom elapsed (some t) (pre ++ tail) (k + 1) (sleeps + 1) := by
      rcases hnt with h | h <;> rw [h] <;> simp only <;>
        rw [if_neg (not_lt.mpr hel)]
    rw [hstep, waitFrom_prefix elapsed t pre tail (k + 1) (sleeps + 1)
      (fun s hs => hpre s (by simp [hs]))
      (fun i hi => by
        have h2 := helapsed (i + 1) (by simpa using hi)
        rw [show k + 1 + i = k + (i + 1) from by omega]
        exact h2)]
    refine congrArg₂ _ ?_ ?_ <;> simp [List.length_cons] <;> omega

/-- C1: over any trace of polls — a prefix of non-terminal snapshots whose
timeout checks pass, followed by a decisive snapshot — the loop fetches and
returns on `completed`, raises the optimization error carrying the server's
code/message/details on `failed`, raises the API error on `cancelled`, and
raises a timeout error when still non-terminal with `elapsed > timeout`;
each non-terminal iteration sleeps once.  In particular the sequence
`[running, running, completed]` returns the fetched result. -/
theorem wait_for_completion_spec :
    (∀ (elapsed : Nat → ℚ) (t : ℚ) (pre : List JobSnapshot) (j : JobSnapshot),
        (∀ s ∈ pre, nonTerminal s.status) →
        (∀ i < pre.length, elapsed i ≤ t) →
        (j.status = JobStatus.completed →
          wait_for_completion elapsed (some t) (pre ++ [j])
            = (WaitOutcome.fetched, pre.length)) ∧
        (∀ e, j.status = JobStatus.failed → j.error = some e →
          wait_for_completion elapsed (some t) (pre ++ [j])
            = (WaitOutcome.optimizationError (e.message.getD "Unknown error") e.code
                e.details, pre.length)) ∧
        (j.status = JobStatus.cancelled →
          wait_for_completion elapsed (some t) (pre ++ [j])
            = (WaitOutcome.cancelledError "Job was cancelled", pre.length)) ∧
        (nonTerminal j.status → t < elapsed pre.length →
          wait_for_completion elapsed (some t) (pre ++ [j])
            = (WaitOutcome.timedOut t, pre.length))) ∧
    wait_for_completion (fun k => (k : ℚ)) (some 100)
        [⟨JobStatus.running, none⟩, ⟨JobStatus.running, none⟩, ⟨JobStatus.completed, none⟩]
      = (WaitOutcome.fetched, 2) := by
  constructor
  · intro elapsed t pre j hpre helapsed
    have hw : wait_for_completion elapsed (some t) (pre ++ [j])
        = waitFrom elapsed (some t) [j] pre.length pre.length := by
      rw [wait_for_completion,
        waitFrom_prefix elapsed t pre [j] 0 0 hpre (fun i hi => by simpa using helapsed i hi)]
      simp
    refine ⟨?_, ?_, ?_, ?_⟩
    · intro hc
      rw [hw, waitFrom, hc]
    · intro e hs herr
      rw [hw, waitFrom, hs, herr]
      rfl
    · intro hc
      rw [hw, waitFrom, hc]
    · intro hnt hto
      rw [hw, waitFrom]
      rcases hnt with h | h <;> rw [h] <;> simp only <;> rw [if_pos hto]
  · rfl

/-- Witness for `wait_for_completion_spec`: one running poll within the
timeout followed by a `failed` snapshot raises the optimization error with
the server payload. -/
theorem wait_for_completion_spec_witness :
    wait_for_completion (fun k => (k : ℚ)) (some 100)
        ([⟨JobStatus.running, none⟩] ++
          [⟨JobStatus.failed,
            some ⟨some "infeasible", some "Optimization problem is infeasible", none⟩⟩])
      = (WaitOutcome.optimizationError "Optimization problem is infeasible"
          (some "infeasible") none, 1) :=
  ((wait_for_completion_spec.1 (fun k => (k : ℚ)) 100 [⟨JobStatus.running, none⟩]
      ⟨JobStatus.failed,
        some ⟨some "infeasible", some "Optimization problem is infeasible", none⟩⟩
      (fun s hs => by
        rw [List.mem_singleton] at hs
        subst hs
        exact Or.inr rfl)
      (fun i hi => by
        have hi0 : i = 0 := by
          simp only [List.length_cons, List.length_nil] at hi
          omega
        subst hi0
        norm_num)).2.1
    ⟨some "infeasible", some "Optimization problem is infeasible", none⟩ rfl rfl)

/-! ## C9: `compare_scenarios` (`analysis/comparison.py`, `models/responses.py`) -/

/-- `InvestmentMetrics` (responses.py lines 61-79).  Note the total-revenue
field is named `total_revenue_10y`; no field `total_revenue_period`
exists. -/
structure InvestmentMetrics where
  npv : ℚ
  irr : Option ℚ
  payback_period_years : Option ℚ
  total_revenue_10y : Option ℚ
  total_costs_10y : Option ℚ
  deriving DecidableEq, Repr

/-- `Summary` (responses.py lines 82-92): exactly the fields declared on
the model.  `investment_metrics` is NOT among them — on the response model
it lives beside `summary`, not inside it. -/
structure Summary where
  total_da_revenue : Option ℚ
  total_ancillary_revenue : Option ℚ
  total_cost : Option ℚ
  expected_profit : Option ℚ
  solver_status : String
  solve_time_seconds : ℚ
  sites_count : Option Int
  deriving DecidableEq, Repr

/-- `InvestmentPlanningResponse` (responses.py lines 94-112); the per-site
schedule payloads are irrelevant to `compare_scenarios` and omitted. -/
structure InvestmentPlanningResponse where
  job_id : String
  summary : Summary
  investment_metrics : Option InvestmentMetrics
  deriving DecidableEq, Repr

/-- Run-time errors raised by `compare_scenarios`. -/
inductive PyError
  | valueError (message : String)
  | attributeError (message : String)
  deriving DecidableEq, Repr

/-- `compare_scenarios` (comparison.py lines 8-68) as it actually executes:
after the emptiness check, the default names, and the name-count check, the
first loop iteration evaluates `summary.investment_metrics`.  `Summary`
(responses.py) declares no such field, and pydantic v2 models raise
`AttributeError` on unknown attributes, so the loop body fails on its first
statement for every scenario list that reaches it (the comparison table is
never built, hence the result type carries no success payload beyond
`Unit`). -/
def compare_scenarios (scenarios : List InvestmentPlanningResponse)
    (names : Option (List String)) : Except PyError Unit :=
  if scenarios.length = 0 then
    Except.error (PyError.valueError "At least one scenario is required")
  else
    let names := match names with
      | some ns => ns
      | none => (List.range scenarios.length).map fun i => "Scenario " ++ toString (i + 1)
    if names.length ≠ scenarios.length then
      Except.error (PyError.valueError "Number of names must match number of scenarios")
    else
      Except.error
        (PyError.attributeError "Summary object has no attribute investment_metrics")

/-- A concrete completed response mirroring the test fixture
`mock_job_completed_response` (tests/conftest.py), investment metrics
included. -/
def sampleResponse : InvestmentPlanningResponse :=
  ⟨"test_job_123",
   ⟨some 500000, none, some 200000, some 300000, "optimal", 1273 / 10, some 1⟩,
   some ⟨1250000, some (12 / 100), some (62 / 10), some 5000000, some 2000000⟩⟩

/-- C9 (code bug): `compare_scenarios` never reaches the claimed table
construction — for every non-empty scenario list whose names check passes
(including entries that carry investment metrics) it raises
`AttributeError`, because `Summary` has no `investment_metrics` attribute;
a mismatched names list still raises the claimed `ValueError` first. -/
theorem compare_scenarios_attribute_bug :
    (∀ (scenarios : List InvestmentPlanningResponse) (names : List String),
        scenarios ≠ [] → names.length = scenarios.length →
        compare_scenarios scenarios (some names)
          = Except.error
              (PyError.attributeError "Summary object has no attribute investment_metrics")) ∧
    (∀ (scenarios : List InvestmentPlanningResponse), scenarios ≠ [] →
        compare_scenarios scenarios none
          = Except.error
              (PyError.attributeError "Summary object has no attribute investment_metrics")) ∧
    compare_scenarios [sampleResponse] none
      = Except.error
          (PyError.attributeError "Summary object has no attribute investment_metrics") ∧
    compare_scenarios [sampleResponse, sampleResponse] (some ["Only One Name"])
      = Except.error
          (PyError.valueError "Number of names must match number of scenarios") := by
  have hlen : ∀ (scenarios : List InvestmentPlanningResponse),
      scenarios ≠ [] → ¬(scenarios.length = 0) := by
    intro scenarios h
    simpa using fun h0 => h (List.length_eq_zero.mp h0)
  refine ⟨fun scenarios names hne hlen' => ?_, fun scenarios hne => ?_, by rfl, by rfl⟩
  · rw [compare_scenarios, if_neg (hlen scenarios hne)]
    simp only
    rw [if_neg (not_not_intro hlen')]
  · rw [compare_scenarios, if_neg (hlen scenarios hne)]
    simp only
    rw [if_neg (not_not_intro (by simp))]

/-- Witness for `compare_scenarios_attribute_bug` on the fixture response
with a matching names list. -/
theorem compare_scenarios_attribute_bug_witness :
    compare_scenarios [sampleResponse] (some ["A"])
      = Except.error
          (PyError.attributeError "Summary object has no attribute investment_metrics") :=
  compare_scenarios_attribute_bug.1 [sampleResponse] ["A"] (by simp) rfl

end SiteCalc
